import Mathlib

/-!
Verification of the vsc-administration reconciliation engine.

Shallow embedding of the incremental reconciliation code:
  * src/lib/vsc/administration/sync.py     (VscTier1cSync.process_t1_users, process_projects, do)
  * src/lib/vsc/administration/tier1c.py   (VscStorageBackend, VscTier1cProject)
  * src/lib/vsc/administration/vo.py       (VscVo._create_fileset, VscVo._set_quota)
  * src/bin/sync_ugent_vsc_users.py        (process_users, process_vos, notify_user_directory_created, main)

Exceptions raised by a provisioning step are modelled by a Boolean oracle per
entity (or per member): `fails e = true` means the body of the corresponding
try-block raises for entity `e`.  Python lists become Lean lists, the
MonoidDict from vsc.utils.missing (keys mapped to lists, combined by
concatenation) becomes an association list with an appending update.
-/

/-- Insertion of an element into a list, keeping elements for which `le x y`
fails in front; building block of the sort used to model Python's sorted(). -/
def insertBy {α : Type} (le : α → α → Bool) (x : α) : List α → List α
  | [] => [x]
  | y :: ys => if le x y then x :: y :: ys else y :: insertBy le x ys

/-- Insertion sort; models the `sorted(...)` call that fixes the iteration
order of the provisioning loops. -/
def sortBy {α : Type} (le : α → α → Bool) : List α → List α
  | [] => []
  | x :: xs => insertBy le x (sortBy le xs)

/-- One pass of the try/except accumulation pattern shared by every
provisioning loop of the repository:

    for e in xs:
        try:    <provision e>; ok.append(e)
        except: err.append(e)

`fails e = true` models the try-body raising for `e`.  Returns (ok, err). -/
def tryLoop {α : Type} (fails : α → Bool) (xs : List α) : List α × List α :=
  xs.foldl
    (fun acc u => if fails u then (acc.1, acc.2 ++ [u]) else (acc.1 ++ [u], acc.2))
    ([], [])

/-- Embedding of VscTier1cSync.process_t1_users (src/lib/vsc/administration/sync.py,
lines 48-87): the sorted account ids are provisioned one by one inside a
try/except that appends to ok_users or error_users; then the quota records are
processed by a second, identical loop.  `userFails` / `quotaFails` are the
exception oracles of the two try-bodies.  Result:
(ok_users, error_users, ok_quota, error_quota). -/
def process_t1_users (userFails quotaFails : Nat → Bool)
    (accountIds quotas : List Nat) : List Nat × List Nat × List Nat × List Nat :=
  let users := tryLoop userFails (sortBy (fun a b => Nat.ble a b) accountIds)
  let qs := tryLoop quotaFails quotas
  (users.1, users.2, qs.1, qs.2)

/-- Embedding of process_users (src/bin/sync_ugent_vsc_users.py, lines 78-107):
the same try/except accumulation over the given user list, in order. -/
def process_users (fails : Nat → Bool) (users : List Nat) : List Nat × List Nat :=
  tryLoop fails users

/-- A filesystem path, as the components os.path.join concatenates. -/
abbrev FsPath := List String

/-- Embedding of os.path.dirname on component paths: drop the last component
(the base_dir_hierarchy computation of _create_fileset). -/
def dirname (p : FsPath) : FsPath := p.dropLast

/-- Mount point of the Dodrio storage (Dodrio.__init__ in tier1c.py:
mount_point='/dodrio/scratch'). -/
def mount_point : FsPath := ["dodrio", "scratch"]

/-- Embedding of VscTier1cProject.project_path joined with the mount point by
VscStorageBackend._get_path: mount_point / host_institute / PROJECT_SUBDIR / pjid
with host_institute = GENT and PROJECT_SUBDIR = 'projects'. -/
def project_path (pid : String) : FsPath := mount_point ++ ["gent", "projects", pid]

/-- One primitive call into the filesystem backend (self.fsops / self.gpfs);
the operations the Storage Backend Adapter exposes. -/
inductive FsOp where
  | makeDir (path : FsPath)
  | makeFileset (path : FsPath) (name : String)
  | chmod (mode : Nat) (path : FsPath)
  | chown (uid gid : Nat) (path : FsPath)
  | setFilesetQuota (soft : Int) (path : FsPath) (name : String) (hard : Nat)
  | setFilesetGrace (path : FsPath) (grace : Nat)
  deriving DecidableEq, Repr

/-- Embedding of VscStorageBackend._create_fileset (tier1c.py lines 90-101):
if get_fileset_info finds no fileset of that name, make_dir on the dirname of
the path then make_fileset; either way, chmod the mode onto the path.
`existing` is the set of fileset names get_fileset_info reports on this
filesystem.  The default mode of the source is 0o770 = 504. -/
def create_fileset_ops (existing : List String) (path : FsPath) (name : String)
    (mode : Nat) : List FsOp :=
  if name ∈ existing then
    [FsOp.chmod mode path]
  else
    [FsOp.makeDir (dirname path), FsOp.makeFileset path name, FsOp.chmod mode path]

/-- Embedding of VscVo._create_fileset (vo.py lines 84-102): the same
exists-check/create/skip shape, then chmod 0o700 = 448 and chown gid gid. -/
def vo_create_fileset_ops (existing : List String) (path : FsPath) (voId : String)
    (gid : Nat) : List FsOp :=
  (if voId ∈ existing then
    [FsOp.chmod 448 path]
  else
    [FsOp.makeDir (dirname path), FsOp.makeFileset path voId, FsOp.chmod 448 path])
  ++ [FsOp.chown gid gid path]

/-- Embedding of the hard limit of VscStorageBackend._set_fileset_quota
(tier1c.py lines 109-120): `hard = quota * 1024 * self.storage.data_replication_factor`,
with `quota` the KiB value from the source of truth. -/
def set_fileset_quota_hard (quotaKiB repl : Nat) : Nat := quotaKiB * 1024 * repl

/-- Embedding of the soft limit of VscStorageBackend._set_fileset_quota:
`soft = int(hard * self.vsc.quota_soft_fraction)`.  The fraction is a
deployment parameter of VSC(); Python's int() truncates toward zero, which on
the nonnegative products arising here is the floor. -/
def set_fileset_quota_soft (hard : Nat) (fraction : ℚ) : ℤ :=
  ⌊(hard : ℚ) * fraction⌋

/-- Embedding of VscVo._set_quota (vo.py lines 125-141): `quota *= 1024`
(KiB to bytes, no replication concept on this backend) and
`soft = int(quota * self.vsc.quota_soft_fraction)`. -/
def vo_set_quota_hard (quotaKiB : Nat) : Nat := quotaKiB * 1024

/-- Soft limit of VscVo._set_quota, same computation as the tier1c backend. -/
def vo_set_quota_soft (hard : Nat) (fraction : ℚ) : ℤ :=
  ⌊(hard : ℚ) * fraction⌋

/-- Modelled from the spec: the quota-assignment formula of section 4.3,
hard limit in bytes = KiB x 1024 x replication_factor (replication_factor 1
when the backend has no replication concept). -/
def spec_hard_limit (quotaKiB repl : Nat) : Nat := quotaKiB * 1024 * repl

/-- Modelled from the spec: soft limit = floor(hard x soft_fraction). -/
def spec_soft_limit (hard : Nat) (fraction : ℚ) : ℤ :=
  ⌊(hard : ℚ) * fraction⌋

/-- Outcome of one synchronization pass of main()
(src/bin/sync_ugent_vsc_users.py, lines 218-240 for the watermark decision). -/
structure SyncPassResult where
  watermark : Nat
  written : Bool
  fatal : Bool
  okUsers : List Nat
  errUsers : List Nat
  deriving DecidableEq, Repr

/-- Embedding of main() of sync_ugent_vsc_users.py, reduced to the state the
claims observe.  `w` is the watermark read at the start (read_timestamp, with
its far-past fallback already applied), `fetched` the change set returned by
the LDAP lookup (`none` models the lookup raising, which lands in the
outer `except` branch: a critical report is cached and the function exits
without writing the timestamp), `fails` the per-user exception oracle of
process_users, `now` the fresh timestamp convert_timestamp() captures, and
`writeOk = false` models write_timestamp raising (the pass degrades to
WARNING and the watermark file keeps its old value). -/
def main_sync_pass (w now : Nat) (fetched : Option (List Nat))
    (fails : Nat → Bool) (writeOk : Bool) : SyncPassResult :=
  match fetched with
  | none =>
    { watermark := w, written := false, fatal := true, okUsers := [], errUsers := [] }
  | some users =>
    let r := process_users fails users
    if writeOk then
      { watermark := now, written := true, fatal := false, okUsers := r.1, errUsers := r.2 }
    else
      { watermark := w, written := false, fatal := false, okUsers := r.1, errUsers := r.2 }

/-- Embedding of notify_user_directory_created
(src/bin/sync_ugent_vsc_users.py, lines 58-75), as the function from the
user's stored status to the status after the call: in dry-run mode it returns
before touching anything; otherwise a status of 'new' becomes 'notify' and
every other status is left untouched. -/
def notify_user_directory_created (dryRun : Bool) (status : String) : String :=
  if dryRun then status
  else if status = "new" then "notify"
  else status

/-- The MonoidDict of vsc.utils.missing as the provisioning loops use it:
keys map to lists and `d[k] = v` concatenates `v` onto the list already held
at `k` (creating the key when absent).  Modelled as an association list. -/
abbrev MDict := List (String × List String)

/-- The MonoidDict update `d[k] = v` with the list-concatenation monoid. -/
def mdAdd (d : MDict) (k : String) (v : List String) : MDict :=
  match d with
  | [] => [(k, v)]
  | (k', v') :: rest =>
    if k' = k then (k', v' ++ v) :: rest else (k', v') :: mdAdd rest k v

/-- Key lookup in the modelled MonoidDict; `none` means the key is absent. -/
def mdLookup (d : MDict) (k : String) : Option (List String) :=
  match d with
  | [] => none
  | (k', v') :: rest => if k' = k then some v' else mdLookup rest k

/-- How the failure/success value at one key grows when the member loop
appends outcome lists: absent-and-nothing stays absent, otherwise the lists
concatenate. -/
def combineOpt (o : Option (List String)) (l : List String) : Option (List String) :=
  match o with
  | none => if l = [] then none else some l
  | some w => some (w ++ l)

/-- Occurrence count of an element in a list. -/
def countOcc {α : Type} [DecidableEq α] (a : α) : List α → Nat
  | [] => 0
  | x :: xs => (if x = a then 1 else 0) + countOcc a xs

/-- Outcome of the moderator lookup of VscTier1cProject.create_fileset:
the first moderator's account was retrieved, the account-page call raised an
HTTP error, or the moderator list was empty (IndexError). -/
inductive ModeratorLookup where
  | found (uidNumber : Nat)
  | httpError
  | indexError
  deriving DecidableEq, Repr

/-- The Python exception that escapes a modelled block. -/
inductive PyErr where
  | nameError
  | loadError
  deriving DecidableEq, Repr

/-- Embedding of VscTier1cProject.create_fileset (tier1c.py lines 215-232).
On the success path the moderator uid and the project's numeric group id own
the fileset.  On the two failure paths the source intends a fallback to the
nobody uid, but the handler is doubly broken: the name HTTPError is never
imported in tier1c.py, so as soon as the lookup raises, evaluating the
`except HTTPError` clause itself raises NameError; and even if the clause
matched, `fileset_group_owner_id` is assigned only inside the try-body before
the failing call, so the following `create_project_fileset(...)` call would
raise UnboundLocalError.  Either way create_fileset raises before any
filesystem operation, and the final `except Exception: log.raiseException`
re-raises to the caller; we model the failure paths as an error result
carrying no operations. -/
def prj_create_fileset (lookup : ModeratorLookup) (prjGid : Nat) (pid : String)
    (existing : List String) : Except PyErr (List FsOp) :=
  match lookup with
  | .found uid =>
    .ok (create_fileset_ops existing (project_path pid) pid 504
      ++ [FsOp.chown uid prjGid (project_path pid)])
  | .httpError => .error .nameError
  | .indexError => .error .nameError

/-- Default project quota of the Dodrio storage definition
(tier1c.py, Dodrio.__init__: quota_prj=1048576); VscTier1cProject.prj_quota
always yields None (the account-page fetch is not implemented), so
set_project_quota always falls back to this default. -/
def dodrio_quota_prj : Nat := 1048576

/-- The backend calls of VscStorageBackend._set_fileset_quota for a project:
set_fileset_quota with the computed soft and hard limits, then
set_fileset_grace with the VO storage grace time. -/
def prj_quota_ops (pid : String) (repl : Nat) (fraction : ℚ) (graceTime : Nat) :
    List FsOp :=
  [FsOp.setFilesetQuota
      (set_fileset_quota_soft (set_fileset_quota_hard dodrio_quota_prj repl) fraction)
      (project_path pid) pid
      (set_fileset_quota_hard dodrio_quota_prj repl),
   FsOp.setFilesetGrace (project_path pid) graceTime]

/-- Per-project authoritative state and exception oracles for one pass:
whether loading the project's account-page record raises, the outcome of the
moderator lookup, the project's numeric group id, whether its fileset already
exists, its full member list (prj.members), the members modified since the
datestamp, and the per-member exception oracle of the inner loop. -/
structure PrjEnv where
  loadFails : Bool
  lookup : ModeratorLookup
  gid : Nat
  filesetExists : Bool
  members : List String
  modified : List String
  memberFails : String → Bool

/-- The project-level steps of the outer try-block of
VscTier1cSync.process_projects (create_scratch_fileset then
set_scratch_quota): loading the authoritative state may raise before any
backend call; otherwise create_fileset runs (and may itself raise, emitting
nothing, see prj_create_fileset) and then the quota calls follow. -/
def prj_provision (pid : String) (e : PrjEnv) (repl : Nat) (fraction : ℚ)
    (graceTime : Nat) : Except PyErr (List FsOp) :=
  if e.loadFails then .error .loadError
  else
    match prj_create_fileset e.lookup e.gid pid
        (if e.filesetExists then [pid] else []) with
    | .error err => .error err
    | .ok ops => .ok (ops ++ prj_quota_ops pid repl fraction graceTime)

/-- True when the project-level steps of process_projects raise for this
project (authoritative-state load failure, or the broken moderator-lookup
handler of create_fileset). -/
def prj_provision_fails (e : PrjEnv) : Bool :=
  e.loadFails ||
    (match e.lookup with
     | ModeratorLookup.found _ => false
     | _ => true)

/-- The success/failure dictionaries and the filesystem-operation trace
accumulated by process_projects. -/
structure PrjAcc where
  ok : MDict
  err : MDict
  trace : List FsOp

/-- The body of the inner member loop of process_projects: one modified
member handled in its own try, appended to ok_prj[prj_id] on success and to
error_prj[prj_id] on exception. -/
def prj_member_step (e : PrjEnv) (pid : String) (a : PrjAcc) (m : String) : PrjAcc :=
  if e.memberFails m then { a with err := mdAdd a.err pid [m] }
  else { a with ok := mdAdd a.ok pid [m] }

/-- One iteration of the project loop of VscTier1cSync.process_projects
(sync.py lines 104-134): if the project-level steps raise, the outer except
records error_prj[prj_id] = prj.members; otherwise each modified member is
handled in its own try, appending the member to ok_prj[prj_id] or to
error_prj[prj_id]. -/
def process_one_prj (repl : Nat) (fraction : ℚ) (graceTime : Nat)
    (env : String → PrjEnv) (acc : PrjAcc) (pid : String) : PrjAcc :=
  match prj_provision pid (env pid) repl fraction graceTime with
  | .error _ => { acc with err := mdAdd acc.err pid (env pid).members }
  | .ok ops =>
    (env pid).modified.foldl (prj_member_step (env pid) pid)
      { acc with trace := acc.trace ++ ops }

/-- Embedding of VscTier1cSync.process_projects (sync.py lines 89-134): the
project ids are sorted, then every project is processed by process_one_prj,
starting from empty success/failure dictionaries and an empty trace. -/
def process_projects (repl : Nat) (fraction : ℚ) (graceTime : Nat)
    (env : String → PrjEnv) (prjIds : List String) : PrjAcc :=
  (sortBy (fun a b => !decide (b < a)) prjIds).foldl
    (process_one_prj repl fraction graceTime env)
    { ok := [], err := [], trace := [] }

/-- Per-VO state for process_vos of sync_ugent_vsc_users.py: whether the
VO-level steps of the outer try (the forced attribute load, fileset creation,
quota) raise, the VO member list, and the per-member exception oracle. -/
structure VoEnv where
  loadFails : Bool
  memberUid : List String
  memberFails : String → Bool

/-- The body of the inner member loop of process_vos: one VO member handled
in its own try, appended to ok_vos[vo_id] or error_vos[vo_id]. -/
def vo_member_step (e : VoEnv) (v : String) (a : MDict × MDict) (u : String) :
    MDict × MDict :=
  if e.memberFails u then (a.1, mdAdd a.2 v [u]) else (mdAdd a.1 v [u], a.2)

/-- One iteration of the VO loop of process_vos: when the VO-level steps
raise, the outer except only logs and the accumulators are returned
unchanged; otherwise the member loop runs over vo.memberUid. -/
def process_one_vo (env : String → VoEnv) (acc : MDict × MDict) (v : String) :
    MDict × MDict :=
  if (env v).loadFails then acc
  else (env v).memberUid.foldl (vo_member_step (env v) v) acc

/-- Embedding of process_vos (src/bin/sync_ugent_vsc_users.py, lines
110-139): per VO, the outer try runs the VO-level steps and then the member
loop; a member failure appends to error_vos[vo_id], a member success to
ok_vos[vo_id]; a VO-level failure is only logged — the outer except updates
NEITHER dictionary.  Returns (ok_vos, error_vos). -/
def process_vos (env : String → VoEnv) (vos : List String) : MDict × MDict :=
  vos.foldl (process_one_vo env) ([], [])

/-- The dictionary value resulting from folding a list of per-member outcomes
into an absent key: absent when nothing was appended, otherwise the list. -/
def optList (l : List String) : Option (List String) :=
  if l = [] then none else some l

/-- Concrete project environment for instantiating the amended claim C8:
project proj_pb's authoritative-state load raises (its member list is
[m1, m2]); every other project loads fine with one modified member m3. -/
def c8PrjEnv : String → PrjEnv := fun p =>
  if p = "proj_pb" then
    { loadFails := true, lookup := ModeratorLookup.found 2540001, gid := 10,
      filesetExists := false, members := ["m1", "m2"], modified := ["m1"],
      memberFails := fun _ => false }
  else
    { loadFails := false, lookup := ModeratorLookup.found 2540002, gid := 11,
      filesetExists := false, members := ["m3"], modified := ["m3"],
      memberFails := fun _ => false }

/-- Concrete VO environment for instantiating the amended claim C8: gvoB's
VO-level steps raise; every other VO succeeds with one member u2. -/
def c8VoEnv : String → VoEnv := fun w =>
  if w = "gvoB" then
    { loadFails := true, memberUid := ["u1"], memberFails := fun _ => false }
  else
    { loadFails := false, memberUid := ["u2"], memberFails := fun _ => false }

/-- Concrete environment for claim C7's scenario: project proj_test01 loads
its authoritative state fine, but the moderator lookup raises an HTTP error;
the project group id is 2640010, the fileset does not yet exist, the member
list is [vsc40001, vsc40002] and vsc40001 was modified. -/
def c7PrjEnv : String → PrjEnv := fun _ =>
  { loadFails := false, lookup := ModeratorLookup.httpError, gid := 2640010,
    filesetExists := false, members := ["vsc40001", "vsc40002"],
    modified := ["vsc40001"], memberFails := fun _ => false }

/-- Embedding of VscStorageBackend.__init__ (tier1c.py lines 59-81) as the
state the constructor actually retains: the storage definition (name,
existing filesets) and the filesystem-operations handle.  The constructor
RECEIVES a dry_run argument but never stores or forwards it — LustreOperations()
is constructed without it and no field records it — so the resulting backend
state has no dry-run field at all (this mirrors the source faithfully). -/
structure VscStorageBackendState where
  storage_name : String
  existing : List String
  deriving DecidableEq, Repr

/-- The constructor of VscStorageBackend for the Dodrio storage: dry_run is
accepted and dropped, exactly as in the source. -/
def vsc_storage_backend_init (dry_run : Bool) (existing : List String) :
    VscStorageBackendState :=
  { storage_name := "dodrioscratch", existing := existing }

/-- Embedding of VscStorageBackend.create_project_fileset (tier1c.py lines
103-107): _create_fileset at the project path, then chown to the moderator
uid and the project gid.  The emitted backend calls depend only on the state
the constructor retained — which holds no dry-run flag. -/
def backend_create_project_fileset (st : VscStorageBackendState) (pid : String)
    (uid gid : Nat) : List FsOp :=
  create_fileset_ops st.existing (project_path pid) pid 504
    ++ [FsOp.chown uid gid (project_path pid)]

theorem insertBy_perm {α : Type} (le : α → α → Bool) (x : α) (l : List α) :
    List.Perm (insertBy le x l) (x :: l) := by
  induction l with
  | nil => simp [insertBy]
  | cons y ys ih =>
    simp only [insertBy]
    by_cases h : le x y = true
    · simp [h]
    · simp only [h, if_false]
      exact List.Perm.trans (List.Perm.cons y ih) (List.Perm.swap x y ys)

theorem sortBy_perm {α : Type} (le : α → α → Bool) (l : List α) :
    List.Perm (sortBy le l) l := by
  induction l with
  | nil => simp [sortBy]
  | cons x xs ih =>
    exact List.Perm.trans (insertBy_perm le x (sortBy le xs)) (List.Perm.cons x ih)

theorem mem_sortBy {α : Type} (le : α → α → Bool) (l : List α) (a : α) :
    a ∈ sortBy le l ↔ a ∈ l :=
  (sortBy_perm le l).mem_iff

theorem length_sortBy {α : Type} (le : α → α → Bool) (l : List α) :
    (sortBy le l).length = l.length :=
  (sortBy_perm le l).length_eq

theorem tryLoop_go {α : Type} (fails : α → Bool) (xs : List α) (a b : List α) :
    xs.foldl
      (fun acc u => if fails u then (acc.1, acc.2 ++ [u]) else (acc.1 ++ [u], acc.2))
      (a, b)
      = (a ++ xs.filter (fun u => !fails u), b ++ xs.filter fails) := by
  induction xs generalizing a b with
  | nil => simp
  | cons x xs ih =>
    by_cases h : fails x = true
    · simp [List.foldl_cons, h, ih, List.filter_cons, List.append_assoc]
    · simp only [Bool.not_eq_true] at h
      simp [List.foldl_cons, h, ih, List.filter_cons, List.append_assoc]

theorem tryLoop_eq {α : Type} (fails : α → Bool) (xs : List α) :
    tryLoop fails xs = (xs.filter (fun u => !fails u), xs.filter fails) := by
  simpa using tryLoop_go fails xs [] []

theorem filter_length_split {α : Type} (p : α → Bool) (xs : List α) :
    (xs.filter (fun u => !p u)).length + (xs.filter p).length = xs.length := by
  induction xs with
  | nil => simp
  | cons x xs ih =>
    by_cases h : p x = true
    · simp [List.filter_cons, h, ← ih]; omega
    · simp only [Bool.not_eq_true] at h
      simp [List.filter_cons, h, ← ih]; omega

/-- Claim C1: in every change set, a provisioning exception of one entity is
isolated: the throwing entity goes only to the failure collection, every other
entity is still fully processed and goes to the success collection, and the
loop covers the whole set (the lengths of the two collections add up to the
change set's size, so the loop never aborts early).  Stated for both the
tier1c loop (process_t1_users, both of its sub-loops) and the legacy loop
(process_users). -/
theorem claim1_failure_isolation (userFails quotaFails : Nat → Bool)
    (accountIds quotas : List Nat) :
    (∀ u, u ∈ (process_t1_users userFails quotaFails accountIds quotas).1
        ↔ u ∈ accountIds ∧ userFails u = false)
    ∧ (∀ u, u ∈ (process_t1_users userFails quotaFails accountIds quotas).2.1
        ↔ u ∈ accountIds ∧ userFails u = true)
    ∧ (process_t1_users userFails quotaFails accountIds quotas).1.length
        + (process_t1_users userFails quotaFails accountIds quotas).2.1.length
        = accountIds.length
    ∧ (∀ q, q ∈ (process_t1_users userFails quotaFails accountIds quotas).2.2.1
        ↔ q ∈ quotas ∧ quotaFails q = false)
    ∧ (∀ q, q ∈ (process_t1_users userFails quotaFails accountIds quotas).2.2.2
        ↔ q ∈ quotas ∧ quotaFails q = true)
    ∧ (∀ u, u ∈ (process_users userFails accountIds).1
        ↔ u ∈ accountIds ∧ userFails u = false)
    ∧ (∀ u, u ∈ (process_users userFails accountIds).2
        ↔ u ∈ accountIds ∧ userFails u = true) := by
  simp only [process_t1_users, process_users, tryLoop_eq]
  refine ⟨?_, ?_, ?_, ?_, ?_, ?_, ?_⟩
  · intro u
    simp [List.mem_filter, mem_sortBy]
  · intro u
    simp [List.mem_filter, mem_sortBy]
  · simpa [length_sortBy] using
      filter_length_split userFails (sortBy (fun a b => Nat.ble a b) accountIds)
  · intro q
    simp [List.mem_filter]
  · intro q
    simp [List.mem_filter]
  · intro u
    simp [List.mem_filter]
  · intro u
    simp [List.mem_filter]

/-- Claim C1, instantiated: with the change set {1, 2, 3} where entity 2
throws, entities 1 and 3 are in the success collection, 2 only in the failure
collection, and all three are accounted for. -/
theorem claim1_witness :
    (2 ∈ (process_users (fun u => decide (u = 2)) [1, 2, 3]).2
      ↔ 2 ∈ [1, 2, 3] ∧ decide ((2 : Nat) = 2) = true)
    ∧ (1 ∈ (process_users (fun u => decide (u = 2)) [1, 2, 3]).1
      ↔ 1 ∈ [1, 2, 3] ∧ decide ((1 : Nat) = 2) = false) :=
  ⟨(claim1_failure_isolation (fun u => decide (u = 2)) (fun _ => false) [1, 2, 3] []).2.2.2.2.2.2 2,
   (claim1_failure_isolation (fun u => decide (u = 2)) (fun _ => false) [1, 2, 3] []).2.2.2.2.2.1 1⟩

/-- Claim C4: fileset creation is idempotent.  If the fileset name already
exists on the filesystem the creation calls (make_dir / make_fileset) are
skipped but the permission mode is still applied; otherwise the parent
directory hierarchy is created, the fileset is created, and the mode is
applied.  Stated for the tier1c backend and for the legacy VO variant. -/
theorem claim4_fileset_idempotent (existing : List String) (path : FsPath)
    (name : String) (mode : Nat) (gid : Nat) :
    (name ∈ existing →
      create_fileset_ops existing path name mode = [FsOp.chmod mode path]
      ∧ vo_create_fileset_ops existing path name gid
          = [FsOp.chmod 448 path, FsOp.chown gid gid path])
    ∧ (name ∉ existing →
      create_fileset_ops existing path name mode
        = [FsOp.makeDir (dirname path), FsOp.makeFileset path name, FsOp.chmod mode path]
      ∧ vo_create_fileset_ops existing path name gid
        = [FsOp.makeDir (dirname path), FsOp.makeFileset path name,
           FsOp.chmod 448 path, FsOp.chown gid gid path]) := by
  constructor
  · intro h
    simp [create_fileset_ops, vo_create_fileset_ops, h]
  · intro h
    simp [create_fileset_ops, vo_create_fileset_ops, h]

/-- Claim C4, instantiated: concrete run of both branches on the fileset name
gvo00001 at its project path. -/
theorem claim4_witness :
    (create_fileset_ops ["gvo00001"] (project_path "gvo00001") "gvo00001" 504
        = [FsOp.chmod 504 (project_path "gvo00001")]
      ∧ vo_create_fileset_ops ["gvo00001"] (project_path "gvo00001") "gvo00001" 2640001
        = [FsOp.chmod 448 (project_path "gvo00001"),
           FsOp.chown 2640001 2640001 (project_path "gvo00001")])
    ∧ (create_fileset_ops [] (project_path "gvo00001") "gvo00001" 504
        = [FsOp.makeDir (dirname (project_path "gvo00001")),
           FsOp.makeFileset (project_path "gvo00001") "gvo00001",
           FsOp.chmod 504 (project_path "gvo00001")]) :=
  ⟨(claim4_fileset_idempotent ["gvo00001"] (project_path "gvo00001") "gvo00001" 504
      2640001).1 (by decide),
   ((claim4_fileset_idempotent [] (project_path "gvo00001") "gvo00001" 504
      2640001).2 (by decide)).1⟩

/-- Claim C3: for every quota record expressed in KiB, the backend hard limit
equals KiB x 1024 x replication_factor and the soft limit equals
floor(hard x soft_fraction) — the code computations refine the spec formula,
for the tier1c backend and for the legacy VO backend (replication factor 1) —
and in particular 10 KiB with replication factor 2 yields hard = 20480 bytes
and, with fraction 0.95, soft = 19456 bytes. -/
theorem claim3_quota_formula :
    (∀ (q r : Nat) (f : ℚ),
      set_fileset_quota_hard q r = spec_hard_limit q r
      ∧ set_fileset_quota_soft (set_fileset_quota_hard q r) f
          = spec_soft_limit (spec_hard_limit q r) f
      ∧ vo_set_quota_hard q = spec_hard_limit q 1
      ∧ vo_set_quota_soft (vo_set_quota_hard q) f
          = spec_soft_limit (spec_hard_limit q 1) f)
    ∧ set_fileset_quota_hard 10 2 = 20480
    ∧ set_fileset_quota_soft 20480 (19 / 20) = 19456 := by
  refine ⟨fun q r f => ⟨rfl, rfl, by simp [vo_set_quota_hard, spec_hard_limit], ?_⟩, rfl, ?_⟩
  · simp [vo_set_quota_soft, spec_soft_limit, vo_set_quota_hard, spec_hard_limit]
  · show ⌊((20480 : Nat) : ℚ) * (19 / 20)⌋ = 19456
    have h : ((20480 : Nat) : ℚ) * (19 / 20) = ((19456 : ℤ) : ℚ) := by norm_num
    rw [h, Int.floor_intCast]

/-- Claim C6: for every hard quota value the code produces (a positive KiB
quota scaled by 1024 and a positive replication factor) and every soft
fraction in the deployment range [0.95, 1], the computed soft limit S
satisfies 0 < S <= H; and S is exactly the spec's function of H and the
fraction (soft is computed from hard, never independently supplied). -/
theorem claim6_soft_le_hard (q r : Nat) (f : ℚ) (hq : 1 ≤ q) (hr : 1 ≤ r)
    (hf1 : 19 / 20 ≤ f) (hf2 : f ≤ 1) :
    0 < set_fileset_quota_soft (set_fileset_quota_hard q r) f
    ∧ set_fileset_quota_soft (set_fileset_quota_hard q r) f
        ≤ (set_fileset_quota_hard q r : ℤ)
    ∧ set_fileset_quota_soft (set_fileset_quota_hard q r) f
        = spec_soft_limit (set_fileset_quota_hard q r) f := by
  have hbig : (1024 : Nat) ≤ set_fileset_quota_hard q r := by
    unfold set_fileset_quota_hard
    calc (1024 : Nat) = 1 * 1024 * 1 := by norm_num
    _ ≤ q * 1024 * r := by
        exact Nat.mul_le_mul (Nat.mul_le_mul hq (le_refl 1024)) hr
  have hcast : (1024 : ℚ) ≤ ((set_fileset_quota_hard q r : Nat) : ℚ) := by
    exact_mod_cast hbig
  have hnonneg : (0 : ℚ) ≤ ((set_fileset_quota_hard q r : Nat) : ℚ) := by positivity
  refine ⟨?_, ?_, rfl⟩
  · have hone : (1 : ℚ) ≤ ((set_fileset_quota_hard q r : Nat) : ℚ) * f := by
      calc (1 : ℚ) ≤ 1024 * (19 / 20) := by norm_num
      _ ≤ ((set_fileset_quota_hard q r : Nat) : ℚ) * f := by
          apply mul_le_mul hcast hf1 (by norm_num) hnonneg
    have : (1 : ℤ) ≤ ⌊((set_fileset_quota_hard q r : Nat) : ℚ) * f⌋ := by
      rw [Int.le_floor]
      exact_mod_cast hone
    unfold set_fileset_quota_soft
    omega
  · unfold set_fileset_quota_soft
    calc ⌊((set_fileset_quota_hard q r : Nat) : ℚ) * f⌋
        ≤ ⌊((set_fileset_quota_hard q r : Nat) : ℚ)⌋ :=
          Int.floor_le_floor (mul_le_of_le_one_right hnonneg hf2)
    _ = (set_fileset_quota_hard q r : ℤ) := Int.floor_natCast _

/-- Claim C6, instantiated at the scenario values: a 1048576 KiB project quota
(the Dodrio default), replication factor 2, fraction 0.95. -/
theorem claim6_witness :
    0 < set_fileset_quota_soft (set_fileset_quota_hard 1048576 2) (19 / 20)
    ∧ set_fileset_quota_soft (set_fileset_quota_hard 1048576 2) (19 / 20)
        ≤ (set_fileset_quota_hard 1048576 2 : ℤ)
    ∧ set_fileset_quota_soft (set_fileset_quota_hard 1048576 2) (19 / 20)
        = spec_soft_limit (set_fileset_quota_hard 1048576 2) (19 / 20) :=
  claim6_soft_le_hard 1048576 2 (19 / 20) (by norm_num) (by norm_num)
    (by norm_num) (by norm_num)

/-- Claim C2: the new watermark is written only when the pass had no fatal
error; per-entity failures never prevent the write (the written flag does not
depend on the exception oracle); when the change-set fetch failed the
watermark is not advanced; and — given that the fresh timestamp is not older
than the stored one — the watermark after any pass is >= the watermark before
it. -/
theorem claim2_watermark (w now : Nat) (fetched : Option (List Nat))
    (fails : Nat → Bool) (writeOk : Bool) :
    ((main_sync_pass w now fetched fails writeOk).written = true
        → (main_sync_pass w now fetched fails writeOk).fatal = false
          ∧ (main_sync_pass w now fetched fails writeOk).watermark = now)
    ∧ (∀ fails' : Nat → Bool,
        (main_sync_pass w now fetched fails writeOk).written
          = (main_sync_pass w now fetched fails' writeOk).written)
    ∧ (fetched = none → (main_sync_pass w now fetched fails writeOk).watermark = w)
    ∧ (w ≤ now → w ≤ (main_sync_pass w now fetched fails writeOk).watermark) := by
  cases fetched with
  | none => simp [main_sync_pass]
  | some users =>
    cases writeOk with
    | false => simp [main_sync_pass]
    | true => simp [main_sync_pass]

/-- Claim C2, instantiated: watermark 100, fresh timestamp 107, a fetched
change set {1, 2} in which user 1 throws, and a successful write: the
timestamp is written, the pass is not fatal, and the watermark advances. -/
theorem claim2_witness :
    ((main_sync_pass 100 107 (some [1, 2]) (fun u => decide (u = 1)) true).written = true
        → (main_sync_pass 100 107 (some [1, 2]) (fun u => decide (u = 1)) true).fatal = false
          ∧ (main_sync_pass 100 107 (some [1, 2]) (fun u => decide (u = 1)) true).watermark = 107)
    ∧ 100 ≤ (main_sync_pass 100 107 (some [1, 2]) (fun u => decide (u = 1)) true).watermark :=
  ⟨(claim2_watermark 100 107 (some [1, 2]) (fun u => decide (u = 1)) true).1,
   (claim2_watermark 100 107 (some [1, 2]) (fun u => decide (u = 1)) true).2.2.2
     (by norm_num)⟩

/-- Claim C9: the post-provisioning status transition is a one-way edge from
new to notify: a user in status new moves to notify, a user in any other
status keeps its status, and with dry-run active every user keeps its status
unchanged. -/
theorem claim9_status_transition (dryRun : Bool) (status : String) :
    (dryRun = true → notify_user_directory_created dryRun status = status)
    ∧ (dryRun = false → status = "new"
        → notify_user_directory_created dryRun status = "notify")
    ∧ (dryRun = false → status ≠ "new"
        → notify_user_directory_created dryRun status = status) := by
  refine ⟨?_, ?_, ?_⟩
  · intro h
    simp [notify_user_directory_created, h]
  · intro h hs
    simp [notify_user_directory_created, h, hs]
  · intro h hs
    simp [notify_user_directory_created, h, hs]

/-- Claim C9, instantiated: new becomes notify, notify stays notify, and in
dry-run mode even a new user keeps status new. -/
theorem claim9_witness :
    notify_user_directory_created false "new" = "notify"
    ∧ notify_user_directory_created false "notify" = "notify"
    ∧ notify_user_directory_created true "new" = "new" :=
  ⟨(claim9_status_transition false "new").2.1 rfl rfl,
   (claim9_status_transition false "notify").2.2 rfl (by decide),
   (claim9_status_transition true "new").1 rfl⟩

theorem mdLookup_mdAdd (d : MDict) (k : String) (v : List String) (q : String) :
    mdLookup (mdAdd d k v) q
      = if k = q then some ((mdLookup d q).getD [] ++ v) else mdLookup d q := by
  induction d with
  | nil =>
    by_cases h : k = q
    · simp [mdAdd, mdLookup, h]
    · simp [mdAdd, mdLookup, h]
  | cons p rest ih =>
    obtain ⟨k', v'⟩ := p
    by_cases h1 : k' = k
    · subst h1
      by_cases h2 : k' = q
      · subst h2
        simp [mdAdd, mdLookup]
      · simp [mdAdd, mdLookup, h2]
    · by_cases h2 : k' = q
      · subst h2
        have hkq : ¬ k = k' := fun h => h1 h.symm
        simp [mdAdd, mdLookup, h1, hkq]
      · simp [mdAdd, mdLookup, h1, h2, ih]

theorem mdLookup_mdAdd_ne (d : MDict) (k : String) (v : List String) (q : String)
    (h : k ≠ q) : mdLookup (mdAdd d k v) q = mdLookup d q := by
  simp [mdLookup_mdAdd, h]

theorem mdLookup_mdAdd_self (d : MDict) (k : String) (v : List String) :
    mdLookup (mdAdd d k v) k = some ((mdLookup d k).getD [] ++ v) := by
  simp [mdLookup_mdAdd]

theorem combineOpt_nil (o : Option (List String)) : combineOpt o [] = o := by
  cases o <;> simp [combineOpt]

theorem combineOpt_mdAdd (d : MDict) (k : String) (m : String) (l : List String) :
    combineOpt (mdLookup (mdAdd d k [m]) k) l
      = combineOpt (mdLookup d k) (m :: l) := by
  rw [mdLookup_mdAdd_self]
  cases h : mdLookup d k <;> simp [combineOpt]

theorem countOcc_insertBy {α : Type} [DecidableEq α] (le : α → α → Bool)
    (x : α) (l : List α) (a : α) :
    countOcc a (insertBy le x l) = countOcc a (x :: l) := by
  induction l with
  | nil => simp [insertBy]
  | cons y ys ih =>
    simp only [insertBy]
    by_cases h : le x y = true
    · simp [h]
    · simp only [h, if_false]
      simp [countOcc, ih]
      omega

theorem countOcc_sortBy {α : Type} [DecidableEq α] (le : α → α → Bool)
    (l : List α) (a : α) : countOcc a (sortBy le l) = countOcc a l := by
  induction l with
  | nil => simp [sortBy]
  | cons x xs ih =>
    rw [sortBy, countOcc_insertBy, countOcc, countOcc, ih]

theorem countOcc_eq_zero {α : Type} [DecidableEq α] (a : α) (l : List α)
    (h : countOcc a l = 0) : ∀ x ∈ l, x ≠ a := by
  induction l with
  | nil => simp
  | cons y ys ih =>
    intro x hx
    rw [countOcc] at h
    by_cases hy : y = a
    · simp [hy] at h
    · rcases List.mem_cons.mp hx with rfl | hx'
      · exact hy
      · exact ih (by omega) x hx'

theorem prj_member_fold_trace (e : PrjEnv) (pid : String) (ms : List String)
    (acc : PrjAcc) :
    (ms.foldl (prj_member_step e pid) acc).trace = acc.trace := by
  induction ms generalizing acc with
  | nil => rfl
  | cons m ms ih =>
    rw [List.foldl_cons, ih]
    unfold prj_member_step
    by_cases h : e.memberFails m = true <;> simp [h]

theorem prj_member_fold_lookup_ne (e : PrjEnv) (pid q : String) (h : pid ≠ q)
    (ms : List String) (acc : PrjAcc) :
    mdLookup ((ms.foldl (prj_member_step e pid) acc).ok) q = mdLookup acc.ok q
    ∧ mdLookup ((ms.foldl (prj_member_step e pid) acc).err) q = mdLookup acc.err q := by
  induction ms generalizing acc with
  | nil => exact ⟨rfl, rfl⟩
  | cons m ms ih =>
    rw [List.foldl_cons]
    refine ⟨?_, ?_⟩
    · rw [(ih _).1]
      unfold prj_member_step
      by_cases hf : e.memberFails m = true <;>
        simp [hf, mdLookup_mdAdd_ne _ _ _ _ h]
    · rw [(ih _).2]
      unfold prj_member_step
      by_cases hf : e.memberFails m = true <;>
        simp [hf, mdLookup_mdAdd_ne _ _ _ _ h]

theorem prj_member_fold_lookup_self (e : PrjEnv) (pid : String)
    (ms : List String) (acc : PrjAcc) :
    mdLookup ((ms.foldl (prj_member_step e pid) acc).ok) pid
      = combineOpt (mdLookup acc.ok pid) (ms.filter (fun m => !e.memberFails m))
    ∧ mdLookup ((ms.foldl (prj_member_step e pid) acc).err) pid
      = combineOpt (mdLookup acc.err pid) (ms.filter e.memberFails) := by
  induction ms generalizing acc with
  | nil => simp [combineOpt_nil]
  | cons m ms ih =>
    rw [List.foldl_cons]
    by_cases hf : e.memberFails m = true
    · refine ⟨?_, ?_⟩
      · rw [(ih _).1]
        unfold prj_member_step
        simp [hf, List.filter_cons]
      · rw [(ih _).2]
        unfold prj_member_step
        simp only [hf, if_true]
        simp only [List.filter_cons, hf, if_true]
        exact combineOpt_mdAdd acc.err pid m (ms.filter e.memberFails)
    · have hf' : e.memberFails m = false := by
        cases hfm : e.memberFails m
        · rfl
        · exact absurd hfm hf
      refine ⟨?_, ?_⟩
      · rw [(ih _).1]
        unfold prj_member_step
        simp only [hf', Bool.false_eq_true, if_false]
        simp only [List.filter_cons, hf', Bool.not_false, if_true]
        exact combineOpt_mdAdd acc.ok pid m (ms.filter (fun m => !e.memberFails m))
      · rw [(ih _).2]
        unfold prj_member_step
        simp [hf', List.filter_cons]

theorem prj_provision_of_fails (pid : String) (e : PrjEnv) (repl : Nat)
    (fraction : ℚ) (graceTime : Nat) (h : prj_provision_fails e = true) :
    ∃ er, prj_provision pid e repl fraction graceTime = Except.error er := by
  unfold prj_provision_fails at h
  unfold prj_provision
  by_cases hl : e.loadFails = true
  · exact ⟨PyErr.loadError, by simp [hl]⟩
  · have hl' : e.loadFails = false := by
      cases hlf : e.loadFails
      · rfl
      · exact absurd hlf hl
    rw [hl', Bool.false_or] at h
    cases hlk : e.lookup with
    | found uid => rw [hlk] at h; simp at h
    | httpError =>
      refine ⟨PyErr.nameError, ?_⟩
      simp [hl', hlk, prj_create_fileset]
    | indexError =>
      refine ⟨PyErr.nameError, ?_⟩
      simp [hl', hlk, prj_create_fileset]

theorem prj_provision_of_ok (pid : String) (e : PrjEnv) (repl : Nat)
    (fraction : ℚ) (graceTime : Nat) (h : prj_provision_fails e = false) :
    ∃ uid, e.lookup = ModeratorLookup.found uid
      ∧ prj_provision pid e repl fraction graceTime
        = Except.ok ((create_fileset_ops (if e.filesetExists then [pid] else [])
            (project_path pid) pid 504
            ++ [FsOp.chown uid e.gid (project_path pid)])
          ++ prj_quota_ops pid repl fraction graceTime) := by
  unfold prj_provision_fails at h
  rw [Bool.or_eq_false_iff] at h
  obtain ⟨hl, hlk⟩ := h
  cases hcase : e.lookup with
  | found uid =>
    refine ⟨uid, rfl, ?_⟩
    simp [prj_provision, hl, hcase, prj_create_fileset]
  | httpError => rw [hcase] at hlk; simp at hlk
  | indexError => rw [hcase] at hlk; simp at hlk

theorem process_one_prj_lookup_ne (repl : Nat) (fraction : ℚ) (graceTime : Nat)
    (env : String → PrjEnv) (acc : PrjAcc) (x q : String) (h : x ≠ q) :
    mdLookup ((process_one_prj repl fraction graceTime env acc x).ok) q
      = mdLookup acc.ok q
    ∧ mdLookup ((process_one_prj repl fraction graceTime env acc x).err) q
      = mdLookup acc.err q := by
  unfold process_one_prj
  cases hp : prj_provision x (env x) repl fraction graceTime with
  | error er => simp [mdLookup_mdAdd_ne _ _ _ _ h]
  | ok ops => exact prj_member_fold_lookup_ne (env x) x q h _ _

theorem process_one_prj_self_err (repl : Nat) (fraction : ℚ) (graceTime : Nat)
    (env : String → PrjEnv) (acc : PrjAcc) (pid : String)
    (h : prj_provision_fails (env pid) = true) :
    (process_one_prj repl fraction graceTime env acc pid).ok = acc.ok
    ∧ mdLookup ((process_one_prj repl fraction graceTime env acc pid).err) pid
        = some ((mdLookup acc.err pid).getD [] ++ (env pid).members)
    ∧ (process_one_prj repl fraction graceTime env acc pid).trace = acc.trace := by
  obtain ⟨er, hp⟩ := prj_provision_of_fails pid (env pid) repl fraction graceTime h
  unfold process_one_prj
  rw [hp]
  exact ⟨rfl, mdLookup_mdAdd_self acc.err pid (env pid).members, rfl⟩

theorem process_one_prj_self_ok (repl : Nat) (fraction : ℚ) (graceTime : Nat)
    (env : String → PrjEnv) (acc : PrjAcc) (pid : String)
    (h : prj_provision_fails (env pid) = false) :
    mdLookup ((process_one_prj repl fraction graceTime env acc pid).ok) pid
      = combineOpt (mdLookup acc.ok pid)
          ((env pid).modified.filter (fun m => !(env pid).memberFails m))
    ∧ mdLookup ((process_one_prj repl fraction graceTime env acc pid).err) pid
      = combineOpt (mdLookup acc.err pid)
          ((env pid).modified.filter ((env pid).memberFails)) := by
  obtain ⟨uid, _, hp⟩ := prj_provision_of_ok pid (env pid) repl fraction graceTime h
  unfold process_one_prj
  rw [hp]
  exact prj_member_fold_lookup_self (env pid) pid _ _

theorem makeFileset_mem_create_fileset_ops (ex : List String) (path : FsPath)
    (name : String) (mode : Nat) (p : FsPath) (pid : String)
    (h : FsOp.makeFileset p pid ∈ create_fileset_ops ex path name mode) :
    pid = name := by
  unfold create_fileset_ops at h
  by_cases hex : name ∈ ex
  · simp [hex] at h
  · simp [hex] at h
    exact h.2

theorem process_one_prj_no_makeFileset (repl : Nat) (fraction : ℚ)
    (graceTime : Nat) (env : String → PrjEnv) (acc : PrjAcc) (x pid : String)
    (p : FsPath) (hcond : x = pid → prj_provision_fails (env x) = true)
    (h : FsOp.makeFileset p pid ∉ acc.trace) :
    FsOp.makeFileset p pid ∉ (process_one_prj repl fraction graceTime env acc x).trace := by
  by_cases hf : prj_provision_fails (env x) = true
  · obtain ⟨er, hp⟩ := prj_provision_of_fails x (env x) repl fraction graceTime hf
    unfold process_one_prj
    rw [hp]
    exact h
  · have hf' : prj_provision_fails (env x) = false := by
      cases hc : prj_provision_fails (env x)
      · rfl
      · exact absurd hc hf
    have hx : x ≠ pid := fun he => hf (hcond he)
    obtain ⟨uid, _, hp⟩ := prj_provision_of_ok x (env x) repl fraction graceTime hf'
    unfold process_one_prj
    rw [hp, prj_member_fold_trace]
    intro hmem
    rcases List.mem_append.mp hmem with hmem | hmem
    · exact h hmem
    · rcases List.mem_append.mp hmem with hmem | hmem
      · rcases List.mem_append.mp hmem with hmem | hmem
        · exact hx ((makeFileset_mem_create_fileset_ops _ _ _ _ _ _ hmem).symm)
        · simp at hmem
      · simp [prj_quota_ops] at hmem

theorem process_prjs_fold_no_makeFileset (repl : Nat) (fraction : ℚ)
    (graceTime : Nat) (env : String → PrjEnv) (pid : String)
    (hf : prj_provision_fails (env pid) = true) (ids : List String)
    (acc : PrjAcc) (p : FsPath) (h : FsOp.makeFileset p pid ∉ acc.trace) :
    FsOp.makeFileset p pid
      ∉ (ids.foldl (process_one_prj repl fraction graceTime env) acc).trace := by
  induction ids generalizing acc with
  | nil => exact h
  | cons x ids ih =>
    rw [List.foldl_cons]
    refine ih _ ?_
    refine process_one_prj_no_makeFileset repl fraction graceTime env acc x pid p ?_ h
    intro he
    rw [he]
    exact hf

theorem process_prjs_fold_lookup_ne (repl : Nat) (fraction : ℚ)
    (graceTime : Nat) (env : String → PrjEnv) (pid : String) (ids : List String)
    (hids : ∀ x ∈ ids, x ≠ pid) (acc : PrjAcc) :
    mdLookup ((ids.foldl (process_one_prj repl fraction graceTime env) acc).ok) pid
      = mdLookup acc.ok pid
    ∧ mdLookup ((ids.foldl (process_one_prj repl fraction graceTime env) acc).err) pid
      = mdLookup acc.err pid := by
  induction ids generalizing acc with
  | nil => exact ⟨rfl, rfl⟩
  | cons x ids ih =>
    rw [List.foldl_cons]
    have hx : x ≠ pid := hids x (List.mem_cons_self x ids)
    have hrest : ∀ y ∈ ids, y ≠ pid := fun y hy => hids y (List.mem_cons_of_mem x hy)
    obtain ⟨h1, h2⟩ :=
      process_one_prj_lookup_ne repl fraction graceTime env acc x pid hx
    obtain ⟨h3, h4⟩ := ih hrest (process_one_prj repl fraction graceTime env acc x)
    exact ⟨h3.trans h1, h4.trans h2⟩

theorem process_prjs_fold_err_of_fails (repl : Nat) (fraction : ℚ)
    (graceTime : Nat) (env : String → PrjEnv) (pid : String)
    (hf : prj_provision_fails (env pid) = true) (ids : List String)
    (acc : PrjAcc) (hc : countOcc pid ids = 1)
    (hok : mdLookup acc.ok pid = none) (herr : mdLookup acc.err pid = none) :
    mdLookup ((ids.foldl (process_one_prj repl fraction graceTime env) acc).ok) pid
      = none
    ∧ mdLookup ((ids.foldl (process_one_prj repl fraction graceTime env) acc).err) pid
      = some (env pid).members := by
  induction ids generalizing acc with
  | nil => simp [countOcc] at hc
  | cons x ids ih =>
    rw [List.foldl_cons]
    by_cases hx : x = pid
    · subst hx
      have hcount : countOcc x ids = 0 := by
        rw [countOcc] at hc
        simp at hc
        omega
      have hrest : ∀ y ∈ ids, y ≠ x := countOcc_eq_zero x ids hcount
      obtain ⟨h1, h2, _⟩ :=
        process_one_prj_self_err repl fraction graceTime env acc x hf
      obtain ⟨h3, h4⟩ := process_prjs_fold_lookup_ne repl fraction graceTime env x
        ids hrest (process_one_prj repl fraction graceTime env acc x)
      constructor
      · rw [h3, h1, hok]
      · rw [h4, h2, herr]
        simp
    · have hcount : countOcc pid ids = 1 := by
        rw [countOcc] at hc
        simp [hx] at hc
        exact hc
      obtain ⟨h1, h2⟩ :=
        process_one_prj_lookup_ne repl fraction graceTime env acc x pid hx
      exact ih (process_one_prj repl fraction graceTime env acc x) hcount
        (h1.trans hok) (h2.trans herr)

theorem process_prjs_fold_ok_char (repl : Nat) (fraction : ℚ)
    (graceTime : Nat) (env : String → PrjEnv) (pid : String)
    (hf : prj_provision_fails (env pid) = false) (ids : List String)
    (acc : PrjAcc) (hc : countOcc pid ids = 1)
    (hok : mdLookup acc.ok pid = none) (herr : mdLookup acc.err pid = none) :
    mdLookup ((ids.foldl (process_one_prj repl fraction graceTime env) acc).ok) pid
      = optList ((env pid).modified.filter (fun m => !(env pid).memberFails m))
    ∧ mdLookup ((ids.foldl (process_one_prj repl fraction graceTime env) acc).err) pid
      = optList ((env pid).modified.filter ((env pid).memberFails)) := by
  induction ids generalizing acc with
  | nil => simp [countOcc] at hc
  | cons x ids ih =>
    rw [List.foldl_cons]
    by_cases hx : x = pid
    · subst hx
      have hcount : countOcc x ids = 0 := by
        rw [countOcc] at hc
        simp at hc
        omega
      have hrest : ∀ y ∈ ids, y ≠ x := countOcc_eq_zero x ids hcount
      obtain ⟨h1, h2⟩ :=
        process_one_prj_self_ok repl fraction graceTime env acc x hf
      obtain ⟨h3, h4⟩ := process_prjs_fold_lookup_ne repl fraction graceTime env x
        ids hrest (process_one_prj repl fraction graceTime env acc x)
      constructor
      · rw [h3, h1, hok]
        rfl
      · rw [h4, h2, herr]
        rfl
    · have hcount : countOcc pid ids = 1 := by
        rw [countOcc] at hc
        simp [hx] at hc
        exact hc
      obtain ⟨h1, h2⟩ :=
        process_one_prj_lookup_ne repl fraction graceTime env acc x pid hx
      exact ih (process_one_prj repl fraction graceTime env acc x) hcount
        (h1.trans hok) (h2.trans herr)

theorem process_prjs_fold_noop (repl : Nat) (fraction : ℚ)
    (graceTime : Nat) (env : String → PrjEnv) (pid : String)
    (hf : prj_provision_fails (env pid) = false)
    (hmod : (env pid).modified = []) (ids : List String) (acc : PrjAcc) :
    mdLookup ((ids.foldl (process_one_prj repl fraction graceTime env) acc).ok) pid
      = mdLookup acc.ok pid
    ∧ mdLookup ((ids.foldl (process_one_prj repl fraction graceTime env) acc).err) pid
      = mdLookup acc.err pid := by
  induction ids generalizing acc with
  | nil => exact ⟨rfl, rfl⟩
  | cons x ids ih =>
    rw [List.foldl_cons]
    by_cases hx : x = pid
    · subst hx
      obtain ⟨h1, h2⟩ := process_one_prj_self_ok repl fraction graceTime env acc x hf
      rw [hmod] at h1 h2
      simp only [List.filter_nil, combineOpt_nil] at h1 h2
      obtain ⟨h3, h4⟩ := ih (process_one_prj repl fraction graceTime env acc x)
      exact ⟨h3.trans h1, h4.trans h2⟩
    · obtain ⟨h1, h2⟩ :=
        process_one_prj_lookup_ne repl fraction graceTime env acc x pid hx
      obtain ⟨h3, h4⟩ := ih (process_one_prj repl fraction graceTime env acc x)
      exact ⟨h3.trans h1, h4.trans h2⟩

theorem vo_member_fold_lookup_ne (e : VoEnv) (v q : String) (h : v ≠ q)
    (ms : List String) (acc : MDict × MDict) :
    mdLookup ((ms.foldl (vo_member_step e v) acc).1) q = mdLookup acc.1 q
    ∧ mdLookup ((ms.foldl (vo_member_step e v) acc).2) q = mdLookup acc.2 q := by
  induction ms generalizing acc with
  | nil => exact ⟨rfl, rfl⟩
  | cons m ms ih =>
    rw [List.foldl_cons]
    refine ⟨?_, ?_⟩
    · rw [(ih _).1]
      unfold vo_member_step
      by_cases hf : e.memberFails m = true <;>
        simp [hf, mdLookup_mdAdd_ne _ _ _ _ h]
    · rw [(ih _).2]
      unfold vo_member_step
      by_cases hf : e.memberFails m = true <;>
        simp [hf, mdLookup_mdAdd_ne _ _ _ _ h]

theorem process_vos_fold_none (env : String → VoEnv) (v : String)
    (h : (env v).loadFails = true) (vos : List String) (acc : MDict × MDict)
    (hok : mdLookup acc.1 v = none) (herr : mdLookup acc.2 v = none) :
    mdLookup ((vos.foldl (process_one_vo env) acc).1) v = none
    ∧ mdLookup ((vos.foldl (process_one_vo env) acc).2) v = none := by
  induction vos generalizing acc with
  | nil => exact ⟨hok, herr⟩
  | cons w vos ih =>
    rw [List.foldl_cons]
    by_cases hw : w = v
    · subst hw
      unfold process_one_vo
      rw [h]
      simp only [if_true]
      exact ih acc hok herr
    · unfold process_one_vo
      by_cases hl : (env w).loadFails = true
      · rw [hl]
        simp only [if_true]
        exact ih acc hok herr
      · have hl' : (env w).loadFails = false := by
          cases hc : (env w).loadFails
          · rfl
          · exact absurd hc hl
        rw [hl']
        simp only [Bool.false_eq_true, if_false]
        obtain ⟨h1, h2⟩ := vo_member_fold_lookup_ne (env w) w v hw (env w).memberUid acc
        exact ih _ (h1.trans hok) (h2.trans herr)

/-- Claim C10: a project whose project-level steps all succeed but whose
modified-member list for the datestamp is empty ends the pass as a key of
neither ok_prj nor error_prj: a fully successful project with no modified
members is counted in neither the ok nor the failed project statistics of
the pass. -/
theorem claim10_empty_modified_uncounted (repl : Nat) (fraction : ℚ)
    (graceTime : Nat) (env : String → PrjEnv) (prjIds : List String)
    (pid : String) (hmem : pid ∈ prjIds)
    (hload : (env pid).loadFails = false)
    (uid : Nat) (hlookup : (env pid).lookup = ModeratorLookup.found uid)
    (hmod : (env pid).modified = []) :
    mdLookup (process_projects repl fraction graceTime env prjIds).ok pid = none
    ∧ mdLookup (process_projects repl fraction graceTime env prjIds).err pid = none := by
  have hf : prj_provision_fails (env pid) = false := by
    unfold prj_provision_fails
    rw [hload, hlookup]
    rfl
  unfold process_projects
  obtain ⟨h1, h2⟩ := process_prjs_fold_noop repl fraction graceTime env pid hf hmod
    (sortBy (fun a b => !decide (b < a)) prjIds) ⟨[], [], []⟩
  exact ⟨h1, h2⟩

/-- Claim C10, instantiated: project pB succeeds at fileset and quota level
but has no modified members, while its siblings pA (one ok member) and pC
(a failing project) surround it; pB is a key of neither dictionary. -/
theorem claim10_witness :
    mdLookup (process_projects 2 1 604800 (fun p =>
      if p = "proj_b" then
        { loadFails := false, lookup := ModeratorLookup.found 2540001, gid := 10,
          filesetExists := false, members := ["vsc1"], modified := [],
          memberFails := fun _ => false }
      else if p = "proj_c" then
        { loadFails := true, lookup := ModeratorLookup.found 2540002, gid := 11,
          filesetExists := false, members := ["vsc2"], modified := ["vsc2"],
          memberFails := fun _ => false }
      else
        { loadFails := false, lookup := ModeratorLookup.found 2540003, gid := 12,
          filesetExists := true, members := ["vsc3"], modified := ["vsc3"],
          memberFails := fun _ => false })
      ["proj_a", "proj_b", "proj_c"]).ok "proj_b" = none
    ∧ mdLookup (process_projects 2 1 604800 (fun p =>
      if p = "proj_b" then
        { loadFails := false, lookup := ModeratorLookup.found 2540001, gid := 10,
          filesetExists := false, members := ["vsc1"], modified := [],
          memberFails := fun _ => false }
      else if p = "proj_c" then
        { loadFails := true, lookup := ModeratorLookup.found 2540002, gid := 11,
          filesetExists := false, members := ["vsc2"], modified := ["vsc2"],
          memberFails := fun _ => false }
      else
        { loadFails := false, lookup := ModeratorLookup.found 2540003, gid := 12,
          filesetExists := true, members := ["vsc3"], modified := ["vsc3"],
          memberFails := fun _ => false })
      ["proj_a", "proj_b", "proj_c"]).err "proj_b" = none :=
  claim10_empty_modified_uncounted 2 1 604800 _ ["proj_a", "proj_b", "proj_c"]
    "proj_b" (by decide) (by decide) 2540001 (by decide) (by decide)

/-- Claim C8 counterexample: the claim says that when loading an entity's
authoritative state fails, the entity itself is recorded as failed.  In
process_vos of sync_ugent_vsc_users.py the outer except only logs: with VOs
{gvoA, gvoB, gvoC} where gvoB's load raises, gvoB is a key of NEITHER the
failure dictionary nor the success dictionary (while sibling gvoA is
processed normally), so the entity is not recorded as failed. -/
theorem claim8_counterexample :
    mdLookup (process_vos (fun v =>
      if v = "gvoB" then
        { loadFails := true, memberUid := ["vsc40001"], memberFails := fun _ => false }
      else
        { loadFails := false, memberUid := ["vsc40002"], memberFails := fun _ => false })
      ["gvoA", "gvoB", "gvoC"]).2 "gvoB" = none
    ∧ mdLookup (process_vos (fun v =>
      if v = "gvoB" then
        { loadFails := true, memberUid := ["vsc40001"], memberFails := fun _ => false }
      else
        { loadFails := false, memberUid := ["vsc40002"], memberFails := fun _ => false })
      ["gvoA", "gvoB", "gvoC"]).1 "gvoB" = none
    ∧ mdLookup (process_vos (fun v =>
      if v = "gvoB" then
        { loadFails := true, memberUid := ["vsc40001"], memberFails := fun _ => false }
      else
        { loadFails := false, memberUid := ["vsc40002"], memberFails := fun _ => false })
      ["gvoA", "gvoB", "gvoC"]).1 "gvoA" = some ["vsc40002"] := by
  decide

/-- Claim C8, amended: when loading an entity's authoritative state fails,
only that entity is aborted, no fileset creation is attempted for it, and
sibling projects are still fully processed; in the tier1c path
(process_projects) the entity is recorded in the failure dictionary under its
own id with its full member list as the stored value, while in the legacy VO
path (process_vos) the failure is only logged and the entity is recorded in
neither the success nor the failure collection. -/
theorem claim8_amended (repl : Nat) (fraction : ℚ) (graceTime : Nat)
    (envP : String → PrjEnv) (envV : String → VoEnv) (ids vos : List String)
    (pid v : String) (hload : (envP pid).loadFails = true)
    (hcount : countOcc pid ids = 1) (hvo : (envV v).loadFails = true) :
    mdLookup (process_projects repl fraction graceTime envP ids).err pid
      = some (envP pid).members
    ∧ mdLookup (process_projects repl fraction graceTime envP ids).ok pid = none
    ∧ (∀ p, FsOp.makeFileset p pid
        ∉ (process_projects repl fraction graceTime envP ids).trace)
    ∧ (∀ q uid, countOcc q ids = 1 → (envP q).loadFails = false →
        (envP q).lookup = ModeratorLookup.found uid →
        mdLookup (process_projects repl fraction graceTime envP ids).ok q
          = optList ((envP q).modified.filter (fun m => !(envP q).memberFails m))
        ∧ mdLookup (process_projects repl fraction graceTime envP ids).err q
          = optList ((envP q).modified.filter ((envP q).memberFails)))
    ∧ mdLookup (process_vos envV vos).1 v = none
    ∧ mdLookup (process_vos envV vos).2 v = none := by
  have hpf : prj_provision_fails (envP pid) = true := by
    unfold prj_provision_fails
    rw [hload]
    rfl
  have hcount' : countOcc pid (sortBy (fun a b => !decide (b < a)) ids) = 1 := by
    rw [countOcc_sortBy]
    exact hcount
  obtain ⟨hok, herr⟩ := process_prjs_fold_err_of_fails repl fraction graceTime envP
    pid hpf (sortBy (fun a b => !decide (b < a)) ids) ⟨[], [], []⟩ hcount' rfl rfl
  refine ⟨herr, hok, ?_, ?_, ?_⟩
  · intro p
    exact process_prjs_fold_no_makeFileset repl fraction graceTime envP pid hpf
      (sortBy (fun a b => !decide (b < a)) ids) ⟨[], [], []⟩ p (by simp)
  · intro q uid hqc hql hqk
    have hqf : prj_provision_fails (envP q) = false := by
      unfold prj_provision_fails
      rw [hql, hqk]
      rfl
    have hqc' : countOcc q (sortBy (fun a b => !decide (b < a)) ids) = 1 := by
      rw [countOcc_sortBy]
      exact hqc
    exact process_prjs_fold_ok_char repl fraction graceTime envP q hqf
      (sortBy (fun a b => !decide (b < a)) ids) ⟨[], [], []⟩ hqc' rfl rfl
  · exact process_vos_fold_none envV v hvo vos ([], []) rfl rfl

/-- Claim C8 amended, instantiated: projects {proj_pa, proj_pb, proj_pc}
where proj_pb's load fails, and VOs {gvoA, gvoB} where gvoB's load fails. -/
theorem claim8_witness :
    mdLookup (process_projects 2 1 604800 c8PrjEnv
        ["proj_pa", "proj_pb", "proj_pc"]).err "proj_pb"
      = some (c8PrjEnv "proj_pb").members
    ∧ mdLookup (process_projects 2 1 604800 c8PrjEnv
        ["proj_pa", "proj_pb", "proj_pc"]).ok "proj_pb" = none
    ∧ (∀ p, FsOp.makeFileset p "proj_pb"
        ∉ (process_projects 2 1 604800 c8PrjEnv
            ["proj_pa", "proj_pb", "proj_pc"]).trace)
    ∧ (∀ q uid, countOcc q ["proj_pa", "proj_pb", "proj_pc"] = 1 →
        (c8PrjEnv q).loadFails = false →
        (c8PrjEnv q).lookup = ModeratorLookup.found uid →
        mdLookup (process_projects 2 1 604800 c8PrjEnv
            ["proj_pa", "proj_pb", "proj_pc"]).ok q
          = optList ((c8PrjEnv q).modified.filter
              (fun m => !(c8PrjEnv q).memberFails m))
        ∧ mdLookup (process_projects 2 1 604800 c8PrjEnv
            ["proj_pa", "proj_pb", "proj_pc"]).err q
          = optList ((c8PrjEnv q).modified.filter ((c8PrjEnv q).memberFails)))
    ∧ mdLookup (process_vos c8VoEnv ["gvoA", "gvoB"]).1 "gvoB" = none
    ∧ mdLookup (process_vos c8VoEnv ["gvoA", "gvoB"]).2 "gvoB" = none :=
  claim8_amended 2 1 604800 c8PrjEnv c8VoEnv ["proj_pa", "proj_pb", "proj_pc"]
    ["gvoA", "gvoB"] "proj_pb" "gvoB" (by decide) (by decide) (by decide)

/-- Claim C7 evaluated on the code at its failing input: the claim says that
when the moderator lookup raises an HTTP error the fileset is still created
with nobody ownership and the project lands in the success collection.  On
the source, create_fileset's fallback handler is broken (HTTPError is not an
imported name in tier1c.py, and fileset_group_owner_id is never assigned on
that path), so create_fileset raises instead: no fileset operation is
emitted, and process_projects records proj_test01 in the FAILURE collection
with its full member list, not in the success collection. -/
theorem claim7_moderator_fallback_broken :
    prj_create_fileset ModeratorLookup.httpError 2640010 "proj_test01" []
      = Except.error PyErr.nameError
    ∧ mdLookup (process_projects 2 1 604800 c7PrjEnv ["proj_test01"]).err
        "proj_test01" = some ["vsc40001", "vsc40002"]
    ∧ mdLookup (process_projects 2 1 604800 c7PrjEnv ["proj_test01"]).ok
        "proj_test01" = none
    ∧ (process_projects 2 1 604800 c7PrjEnv ["proj_test01"]).trace = [] := by
  refine ⟨rfl, ?_, ?_, rfl⟩ <;> decide

/-- Claim C5 evaluated on the code at its failing input: the claim says that
with dry-run enabled no mutating backend call is performed.  In tier1c.py the
dry_run argument of VscStorageBackend.__init__ is discarded, so the backend
state — and therefore the operation list of every backend call — is identical
for dry_run=True and dry_run=False, and a dry-run pass that provisions the
absent fileset proj_test01 still emits make_dir, make_fileset, chmod and
chown mutations. -/
theorem claim5_dry_run_dropped :
    (∀ (d₁ d₂ : Bool) (ex : List String),
        vsc_storage_backend_init d₁ ex = vsc_storage_backend_init d₂ ex)
    ∧ backend_create_project_fileset (vsc_storage_backend_init true [])
        "proj_test01" 2540001 2640010
      = [FsOp.makeDir (dirname (project_path "proj_test01")),
         FsOp.makeFileset (project_path "proj_test01") "proj_test01",
         FsOp.chmod 504 (project_path "proj_test01"),
         FsOp.chown 2540001 2640010 (project_path "proj_test01")]
    ∧ FsOp.makeFileset (project_path "proj_test01") "proj_test01"
        ∈ backend_create_project_fileset (vsc_storage_backend_init true [])
            "proj_test01" 2540001 2640010 := by
  refine ⟨fun d₁ d₂ ex => rfl, by decide, by decide⟩
